/-
Verification development for the scrabg configuration-driven crawler.

The definitions below are a shallow embedding of the Python sources:
  * src/success_worker.py            (WorkflowProcessor: step machine, extraction, fan-out)
  * src/crawler/utils/workflow.py    (WorkflowRunner: scrapy-side extraction)
  * src/crawler/utils/encoding_handler.py (EncodingHandler: charset cascade)
  * src/crawler/utils/hash_helper.py (HashHelper)
  * src/crawler/utils/db_manager.py / mongodb_manager.py (save_article dedup)

External collaborators (parsel/lxml selector engine, chardet, Python codec
registry, hashlib, the SQL/Mongo backends) are modelled as explicit function
parameters or small abstract state machines; each such modelling choice is
recorded in the doc comment of the definition that makes it.
-/
import Mathlib

namespace Scrabg

/-- Python whitespace (`\s` for ASCII input, and the set `str.strip()`
removes): space, tab, newline, carriage return, vertical tab, form feed.
Non-ASCII unicode whitespace is outside the model. -/
def pySpace (c : Char) : Bool :=
  c = ' ' ∨ c = '\t' ∨ c = '\n' ∨ c = '\r' ∨ c = '\x0b' ∨ c = '\x0c'

/-- Python `str.strip()`: remove leading and trailing whitespace. -/
def pyStrip (s : String) : String :=
  String.mk (((s.data.dropWhile pySpace).reverse.dropWhile pySpace).reverse)

/-- Python `str.lower()` (ASCII case folding). -/
def lowerStr (s : String) : String :=
  String.mk (s.data.map Char.toLower)

/-- Does `cs` start with `pat`? -/
def startsWithL (pat cs : List Char) : Bool :=
  cs.take pat.length = pat

/-- Split `cs` at the first occurrence of `pat`: `some (before, after)`
with `cs = before ++ pat ++ after`, or `none` when `pat` does not occur. -/
def breakOn (pat : List Char) : List Char → Option (List Char × List Char)
  | [] => none
  | c :: cs =>
    if startsWithL pat (c :: cs) then some ([], (c :: cs).drop pat.length)
    else
      match breakOn pat cs with
      | some pq => some (c :: pq.1, pq.2)
      | none => none

/-- Request headers: a Python `dict[str, str]` in insertion order. -/
abbrev Headers := List (String × String)

/-- The `context` dictionary threaded through request metadata:
a Python `dict[str, str]` in insertion order. -/
abbrev Ctx := List (String × String)

/-- Model of Python `d[k] = v` on a string-keyed dict: if the key is present
its value is replaced in place (position preserved), otherwise the pair is
appended at the end (insertion order). -/
def ctxSet (c : Ctx) (k v : String) : Ctx :=
  if c.any (fun p => p.1 = k) then
    c.map (fun p => if p.1 = k then (k, v) else p)
  else
    c ++ [(k, v)]

/-- Model of Python `d.get(k)`: the value of the first (unique) binding. -/
def ctxGet (c : Ctx) (k : String) : Option String :=
  (c.find? (fun p => p.1 = k)).map Prod.snd

theorem ctxGet_nil (k : String) : ctxGet [] k = none := rfl

theorem find?_map_set (c : Ctx) (k v : String)
    (h : c.any (fun p => p.1 = k) = true) :
    (c.map (fun p => if p.1 = k then (k, v) else p)).find? (fun p => p.1 = k)
      = some (k, v) := by
  induction c with
  | nil => simp at h
  | cons p ps ih =>
    by_cases hk : p.1 = k
    · rw [List.map_cons, if_pos hk, List.find?_cons_of_pos _ (by simp)]
    · simp only [List.any_cons, Bool.or_eq_true, decide_eq_true_eq] at h
      rcases h with h | h
      · exact absurd h hk
      · rw [List.map_cons, if_neg hk, List.find?_cons_of_neg _ (by simpa using hk)]
        exact ih h

theorem ctxGet_ctxSet_self (c : Ctx) (k v : String) :
    ctxGet (ctxSet c k v) k = some v := by
  unfold ctxSet ctxGet
  by_cases h : c.any (fun p => p.1 = k)
  · rw [if_pos h, find?_map_set c k v h]
    rfl
  · rw [if_neg h]
    have hc : c.find? (fun p => p.1 = k) = none := by
      rw [List.find?_eq_none]
      intro p hp
      intro hpk
      exact h (List.any_eq_true.mpr ⟨p, hp, hpk⟩)
    rw [List.find?_append, hc]
    simp

theorem find?_map_set_ne (c : Ctx) (k k' v : String) (h : k' ≠ k) :
    (c.map (fun p => if p.1 = k then (k, v) else p)).find? (fun p => p.1 = k')
      = c.find? (fun p => p.1 = k') := by
  induction c with
  | nil => rfl
  | cons p ps ih =>
    by_cases hk : p.1 = k
    · have h1 : ¬ ((k, v).1 = k') := fun hkk => h hkk.symm
      have h2 : ¬ (p.1 = k') := by rw [hk]; exact fun hkk => h hkk.symm
      rw [List.map_cons, if_pos hk,
        List.find?_cons_of_neg _ (by simpa using h1),
        List.find?_cons_of_neg _ (by simpa using h2)]
      exact ih
    · rw [List.map_cons, if_neg hk]
      by_cases hp : p.1 = k'
      · rw [List.find?_cons_of_pos _ (by simpa using hp),
          List.find?_cons_of_pos _ (by simpa using hp)]
      · rw [List.find?_cons_of_neg _ (by simpa using hp),
          List.find?_cons_of_neg _ (by simpa using hp)]
        exact ih

theorem ctxGet_ctxSet_ne (c : Ctx) (k k' v : String) (h : k' ≠ k) :
    ctxGet (ctxSet c k v) k' = ctxGet c k' := by
  unfold ctxSet ctxGet
  by_cases hany : c.any (fun p => p.1 = k)
  · rw [if_pos hany, find?_map_set_ne c k k' v h]
  · rw [if_neg hany, List.find?_append]
    have hne : ¬ (k = k') := fun hkk => h hkk.symm
    have h1 : ([(k, v)].find? (fun p => p.1 = k')) = none := by
      rw [List.find?_cons_of_neg _ (by simpa using hne)]
      rfl
    rw [h1]
    cases c.find? (fun p => p.1 = k') <;> rfl

/-- The parsed page (parsel `Selector`): for each query language the engine
maps an expression to the textual match list, or to an error when the engine
rejects the expression (parsel/lxml raise `ValueError` e.g. on the empty
expression; Python exceptions are modelled as `Except.error`). -/
structure Page where
  xpathQ : String → Except String (List String)
  cssQ : String → Except String (List String)

/-- One extraction rule dict (`fieldName` / `expression` / `extractType` /
`multiple` / `maxLinks`).  `extractType` defaults to `"xpath"`, `multiple` to
`False`; `maxLinks := none` models an absent key / `None`.  Negative
`maxLinks` values (Python negative slicing) are outside the model: crawl
configurations carry nonnegative counts. -/
structure FieldRule where
  fieldName : String
  expression : String
  extractType : String := "xpath"
  multiple : Bool := false
  maxLinks : Option Nat := none
deriving DecidableEq

/-- The `"://"` separator between a URL scheme and its authority. -/
def schemeSep : List Char := [':', '/', '/']

/-- Model of Python `urllib.parse.urljoin` restricted to the shapes the
crawler meets: empty relative (returns the base), absolute URL (contains
`"://"`), protocol-relative `//host/...`, root-relative `/path`, and a plain
relative segment (replaces everything after the last `/` of the base path,
`/` when the base path is empty).  Dot-segment normalization and
query/fragment handling are omitted; no claim below evaluates `urljoin` on
such inputs. -/
def urljoin (base rel : String) : String :=
  if rel = "" then base
  else if (breakOn schemeSep rel.data).isSome then rel
  else
    match breakOn schemeSep base.data with
    | some sr =>
      let scheme := sr.1
      let auth := sr.2.takeWhile (fun c => c ≠ '/')
      let path := sr.2.drop auth.length
      if startsWithL ['/', '/'] rel.data then String.mk (scheme ++ ':' :: rel.data)
      else if startsWithL ['/'] rel.data then
        String.mk (scheme ++ schemeSep ++ auth ++ rel.data)
      else
        let dir := (path.reverse.dropWhile (fun c => c ≠ '/')).reverse
        let dir := if dir = [] then ['/'] else dir
        String.mk (scheme ++ schemeSep ++ auth ++ dir ++ rel.data)
    | none => rel

theorem urljoin_empty (base : String) : urljoin base "" = base := rfl

namespace WorkflowProcessor

/-- `WorkflowProcessor._extract` (src/success_worker.py:168-182) called with
`multiple=True`: empty (or missing) expression short-circuits to `[]` without
consulting the selector; otherwise the `css`/`xpath` engine is dispatched on
`extractType` (anything other than `"css"` means xpath) and every match is
stripped (`value.strip()`).  parsel's `getall()` only yields strings, so the
`isinstance(value, str)` guard always strips. -/
def extractMultiple (page : Page) (rule : FieldRule) : Except String (List String) :=
  if rule.expression = "" then .ok []
  else
    match (if rule.extractType = "css" then page.cssQ else page.xpathQ) rule.expression with
    | .error e => .error e
    | .ok vs => .ok (vs.map pyStrip)

/-- `WorkflowProcessor._extract` with `multiple=False`: empty expression
yields the Python string `""` (`some ""`), a miss yields Python `None`
(`none`), a hit yields the first match stripped. -/
def extractSingle (page : Page) (rule : FieldRule) : Except String (Option String) :=
  if rule.expression = "" then .ok (some "")
  else
    match (if rule.extractType = "css" then page.cssQ else page.xpathQ) rule.expression with
    | .error e => .error e
    | .ok vs => .ok (vs.head?.map pyStrip)

/-- The `other_values` dict comprehension of `_handle_link_extraction`
(src/success_worker.py:95-99): every non-`link` rule extracted with
`multiple=True`, in rule order.  A duplicated `fieldName` keeps both entries
here where the Python dict keeps one; the overwriting `ctxSet` fold used for
pairing produces the same final context either way. -/
def extractOthers (page : Page) (rules : List FieldRule) :
    Except String (List (String × List String)) :=
  (rules.filter (fun r => r.fieldName ≠ "link")).mapM
    (fun r =>
      match extractMultiple page r with
      | .error e => .error e
      | .ok vs => .ok (r.fieldName, vs))

/-- The truncation guard (src/success_worker.py:101-103): Python's
`if max_links:` is false for `None` *and* `0`, so `maxLinks = 0` leaves the
list untouched. -/
def truncateLinks (maxLinks : Option Nat) (links : List String) : List String :=
  match maxLinks with
  | some n => if n = 0 then links else links.take n
  | none => links

/-- The per-link pairing of `_handle_link_extraction`
(src/success_worker.py:108-113): copy the incoming context, then for each
sibling field with a non-empty value list set
`values[idx] if idx < len(values) else values[-1]` (index clamp). -/
def pairContext (ctx : Ctx) (others : List (String × List String)) (idx : Nat) : Ctx :=
  others.foldl
    (fun c fv =>
      if fv.2 = [] then c
      else ctxSet c fv.1 (fv.2.getD idx (fv.2.getLastD "")))
    ctx

/-- One follow-up request payload pushed to the start queue
(src/success_worker.py:115-125). -/
structure Request where
  url : String
  method : String
  headers : Headers
  workflowIndex : Nat
  context : Ctx
  dontFilter : Bool
deriving DecidableEq

/-- The request built for the link at (post-truncation) position `idx`. -/
def mkLinkRequest (dh : Headers) (url : String) (ctx : Ctx)
    (others : List (String × List String)) (nextIndex idx : Nat)
    (rawLink : String) : Request :=
  { url := urljoin url rawLink
    method := "GET"
    headers := dh
    workflowIndex := nextIndex
    context := pairContext ctx others idx
    dontFilter := false }

/-- The `for idx, raw_link in enumerate(link_values)` loop
(src/success_worker.py:106-126), as the ordered list of pushed payloads. -/
def buildLinkRequests (dh : Headers) (url : String) (ctx : Ctx)
    (others : List (String × List String)) (nextIndex : Nat) :
    Nat → List String → List Request
  | _, [] => []
  | idx, l :: ls =>
    mkLinkRequest dh url ctx others nextIndex idx l
      :: buildLinkRequests dh url ctx others nextIndex (idx + 1) ls

/-- `WorkflowProcessor._handle_link_extraction` (src/success_worker.py:83-126).
`dh` is `self.default_headers`; a raised extraction exception propagates as
`Except.error` (caught by `run_forever`'s error-queue handler).  No rules, or
no rule named `link`, yields no requests. -/
def handleLinkExtraction (dh : Headers) (rules : List FieldRule) (page : Page)
    (url : String) (ctx : Ctx) (index : Nat) : Except String (List Request) :=
  if rules.isEmpty then .ok []
  else
    match rules.find? (fun r => r.fieldName = "link") with
    | none => .ok []
    | some linkRule =>
      match extractMultiple page linkRule with
      | .error e => .error e
      | .ok linkValues =>
        match extractOthers page rules with
        | .error e => .error e
        | .ok others =>
          .ok (buildLinkRequests dh url ctx others (index + 1) 0
                (truncateLinks linkRule.maxLinks linkValues))

/-- One descriptor returned by the user hook `process_request`
(src/success_worker.py:250-263).  The descriptor is a Python dict;
`metaWorkflowIndex` is the `workflow_index` entry of its optional `meta`
dict, the only `meta` entry `_run_custom_code` reads (other entries are
carried through unchanged and are not modelled). -/
structure Descriptor where
  url : Option String := none
  method : Option String := none
  headers : Option Headers := none
  dont_filter : Option Bool := none
  metaWorkflowIndex : Option Nat := none
deriving DecidableEq

/-- A request dict built by `_run_custom_code` from a hook descriptor:
the `url` is `item.get("url")`, taken verbatim. -/
structure HookRequest where
  url : Option String
  method : String
  headers : Headers
  workflowIndex : Nat
  dontFilter : Bool
deriving DecidableEq

/-- The request-building loop of `_run_custom_code`
(src/success_worker.py:251-264), applied to the descriptor list the
user-supplied `process_request` returned (the sandboxed `exec` of the user
source is external to the model).  `meta.setdefault("workflow_index",
next_index)` keeps a descriptor-supplied index and defaults to `next_index`;
`item.get("headers") or self.default_headers` falls back on a missing or
empty dict. -/
def buildHookRequests (dh : Headers) (results : List Descriptor)
    (next_index : Nat) : List HookRequest :=
  results.map (fun item =>
    { url := item.url
      method := item.method.getD "GET"
      headers :=
        match item.headers with
        | some hs => if hs.isEmpty then dh else hs
        | none => dh
      workflowIndex := item.metaWorkflowIndex.getD next_index
      dontFilter := item.dont_filter.getD false })

/-- A `data_extraction` step's config payload (only the field
`_handle_data_extraction` reads for follow-up requests is modelled besides
the rules). -/
structure DataStep where
  extractionRules : List FieldRule := []
  nextRequestCustomCode : Option String := none
deriving DecidableEq

/-- The follow-up requests pushed by `_handle_data_extraction`
(src/success_worker.py:147-166) for a step at `index`: only when
`nextRequestCustomCode` is truthy (present and non-empty) does it run
`_run_custom_code(custom_code, response, index + 1, data)`; `hookResults` is
the descriptor list that `process_request` returned. -/
def handleDataRequests (dh : Headers) (step : DataStep) (index : Nat)
    (hookResults : List Descriptor) : List HookRequest :=
  match step.nextRequestCustomCode with
  | none => []
  | some code => if code = "" then [] else buildHookRequests dh hookResults (index + 1)

end WorkflowProcessor

namespace WorkflowRunner

/-- `WorkflowRunner._extract` (src/crawler/utils/workflow.py:109-115) with
`multiple=True`: the expression is passed to the engine unguarded (no
empty-expression check) and matches are returned *untrimmed*; `getall()`
never returns `None`, so the `values is None` branch is unreachable here. -/
def extractMultiple (page : Page) (expr extract_type : String) :
    Except String (List String) :=
  (if extract_type = "xpath" then page.xpathQ else page.cssQ) expr

/-- `WorkflowRunner._extract` with `multiple=False`: first match untrimmed,
or `""` when `get()` returns `None`; again no empty-expression guard. -/
def extractSingle (page : Page) (expr extract_type : String) :
    Except String String :=
  match (if extract_type = "xpath" then page.xpathQ else page.cssQ) expr with
  | .error e => .error e
  | .ok vs => .ok (vs.headD "")

end WorkflowRunner

deriving instance DecidableEq for Except

section ListHelpers

variable {α : Type _}

theorem take_get?_of_lt : ∀ (l : List α) (n i : Nat), i < n →
    (l.take n).get? i = l.get? i := by
  intro l
  induction l with
  | nil => intro n i _; simp
  | cons a l ih =>
    intro n i hi
    cases n with
    | zero => exact absurd hi (Nat.not_lt_zero i)
    | succ n =>
      cases i with
      | zero => rfl
      | succ i => exact ih n i (Nat.lt_of_succ_lt_succ hi)

theorem get?_eq_getD_of_lt : ∀ (l : List α) (i : Nat) (d : α), i < l.length →
    l.get? i = some (l.getD i d) := by
  intro l
  induction l with
  | nil => intro i d hi; simp at hi
  | cons a l ih =>
    intro i d hi
    cases i with
    | zero => rfl
    | succ i => exact ih i d (Nat.lt_of_succ_lt_succ hi)

theorem getD_of_le : ∀ (l : List α) (i : Nat) (d : α), l.length ≤ i →
    l.getD i d = d := by
  intro l
  induction l with
  | nil => intro i d _; cases i <;> rfl
  | cons a l ih =>
    intro i d hi
    cases i with
    | zero => exact absurd hi (by simp)
    | succ i => exact ih i d (Nat.le_of_succ_le_succ hi)

theorem get?_last_of_ne_nil : ∀ (l : List α) (d : α), l ≠ [] →
    l.get? (l.length - 1) = some (l.getLastD d) := by
  intro l
  induction l with
  | nil => intro d h; exact absurd rfl h
  | cons a l ih =>
    intro d _
    cases l with
    | nil => rfl
    | cons b t =>
      have h1 : (a :: b :: t).length - 1 = (b :: t).length - 1 + 1 := by
        simp [List.length_cons]
      rw [h1]
      show (b :: t).get? ((b :: t).length - 1) = some ((a :: b :: t).getLastD d)
      rw [ih a (by simp)]
      rfl

/-- The index clamp `values[idx] if idx < len(values) else values[-1]`
written as a single lookup at `min idx (len - 1)`. -/
theorem get?_min_clamp (l : List α) (i : Nat) (d : α) (h : l ≠ []) :
    l.get? (min i (l.length - 1)) = some (l.getD i (l.getLastD d)) := by
  rcases Nat.lt_or_ge i l.length with hlt | hge
  · rw [Nat.min_eq_left (Nat.le_sub_one_of_lt hlt)]
    exact get?_eq_getD_of_lt l i (l.getLastD d) hlt
  · have h1 : l.length - 1 ≤ i := le_trans (Nat.sub_le _ _) hge
    rw [Nat.min_eq_right h1, get?_last_of_ne_nil l d h, getD_of_le l i _ hge]

end ListHelpers

namespace WorkflowProcessor

theorem buildLinkRequests_length (dh : Headers) (url : String) (ctx : Ctx)
    (others : List (String × List String)) (ni : Nat) :
    ∀ (i0 : Nat) (ls : List String),
      (buildLinkRequests dh url ctx others ni i0 ls).length = ls.length := by
  intro i0 ls
  induction ls generalizing i0 with
  | nil => rfl
  | cons l t ih => simp [buildLinkRequests, ih]

theorem buildLinkRequests_get? (dh : Headers) (url : String) (ctx : Ctx)
    (others : List (String × List String)) (ni : Nat) :
    ∀ (ls : List String) (i0 i : Nat),
      (buildLinkRequests dh url ctx others ni i0 ls).get? i
        = (ls.get? i).map (fun l => mkLinkRequest dh url ctx others ni (i0 + i) l) := by
  intro ls
  induction ls with
  | nil => intro i0 i; rfl
  | cons l t ih =>
    intro i0 i
    cases i with
    | zero => rfl
    | succ i =>
      show (buildLinkRequests dh url ctx others ni (i0 + 1) t).get? i = _
      rw [ih (i0 + 1) i]
      have : i0 + 1 + i = i0 + (i + 1) := by omega
      rw [this]
      rfl

theorem pairContext_cons (ctx : Ctx) (p : String × List String)
    (rest : List (String × List String)) (idx : Nat) :
    pairContext ctx (p :: rest) idx
      = pairContext
          (if p.2 = [] then ctx else ctxSet ctx p.1 (p.2.getD idx (p.2.getLastD "")))
          rest idx := rfl

theorem ctxGet_pairContext_of_not_mem (ctx : Ctx)
    (others : List (String × List String)) (f : String) (idx : Nat)
    (h : ∀ p ∈ others, p.1 ≠ f) :
    ctxGet (pairContext ctx others idx) f = ctxGet ctx f := by
  induction others generalizing ctx with
  | nil => rfl
  | cons p rest ih =>
    have hp : p.1 ≠ f := h p (List.mem_cons_self p rest)
    have hrest : ∀ q ∈ rest, q.1 ≠ f := fun q hq => h q (List.mem_cons_of_mem p hq)
    rw [pairContext_cons, ih _ hrest]
    by_cases hv : p.2 = []
    · rw [if_pos hv]
    · rw [if_neg hv]
      exact ctxGet_ctxSet_ne ctx p.1 f _ (Ne.symm hp)

theorem ctxGet_pairContext_of_mem (ctx : Ctx)
    (others : List (String × List String)) (f : String) (values : List String)
    (idx : Nat) (hnodup : (others.map Prod.fst).Nodup)
    (hmem : (f, values) ∈ others) (hvne : values ≠ []) :
    ctxGet (pairContext ctx others idx) f
      = some (values.getD idx (values.getLastD "")) := by
  induction others generalizing ctx with
  | nil => cases hmem
  | cons p rest ih =>
    rw [List.map_cons, List.nodup_cons] at hnodup
    obtain ⟨hnotmem, hnd⟩ := hnodup
    rw [pairContext_cons]
    rcases List.mem_cons.mp hmem with heq | hmem'
    · subst heq
      have hrest : ∀ q ∈ rest, q.1 ≠ f := by
        intro q hq hqf
        have hq1 : q.1 ∈ rest.map Prod.fst := List.mem_map_of_mem Prod.fst hq
        exact hnotmem (hqf ▸ hq1)
      rw [if_neg hvne, ctxGet_pairContext_of_not_mem _ rest f idx hrest,
        ctxGet_ctxSet_self]
    · exact ih _ hnd hmem'

/-- When the rules are found and the extractions succeed,
`_handle_link_extraction` pushes exactly the per-index request list built
over the truncated link sequence. -/
theorem handleLinkExtraction_ok (dh : Headers) (rules : List FieldRule)
    (page : Page) (url : String) (ctx : Ctx) (index : Nat)
    (linkRule : FieldRule) (links : List String)
    (others : List (String × List String))
    (hfind : rules.find? (fun r => r.fieldName = "link") = some linkRule)
    (hlinks : extractMultiple page linkRule = .ok links)
    (hothers : extractOthers page rules = .ok others) :
    handleLinkExtraction dh rules page url ctx index
      = .ok (buildLinkRequests dh url ctx others (index + 1) 0
              (truncateLinks linkRule.maxLinks links)) := by
  have hne : rules.isEmpty = false := by
    cases rules with
    | nil => simp at hfind
    | cons a l => rfl
  simp only [handleLinkExtraction, hne, hfind, hlinks, hothers,
    Bool.false_eq_true, if_false]

end WorkflowProcessor

open WorkflowProcessor in
/-- C1: for a `link_extraction` step whose link rule has `maxLinks = n > 0`
and a page whose link rule extracts `m > n` raw links, exactly `n` follow-up
requests are pushed, the `i`-th (for `i < n`) built from the `i`-th link of
the first-`n` prefix with its context paired at the post-truncation index
`i` (truncation happens before the pairing loop).  `maxLinks = 0` is treated
as unset by the code's truthiness guard, hence the `0 < n` hypothesis (see
the companion theorem for `maxLinks = 0`). -/
theorem linkExtraction_maxLinks_emits_exactly_n
    (dh : Headers) (rules : List FieldRule) (page : Page) (url : String)
    (ctx : Ctx) (index : Nat) (linkRule : FieldRule) (n : Nat)
    (links : List String) (others : List (String × List String)) (i : Nat)
    (hfind : rules.find? (fun r => r.fieldName = "link") = some linkRule)
    (hmax : linkRule.maxLinks = some n) (hn : 0 < n)
    (hlinks : extractMultiple page linkRule = .ok links)
    (hlen : n < links.length)
    (hothers : extractOthers page rules = .ok others)
    (hi : i < n) :
    ((handleLinkExtraction dh rules page url ctx index).toOption.map
        List.length = some n)
    ∧ ((handleLinkExtraction dh rules page url ctx index).toOption.bind
        (fun reqs => reqs.get? i)
        = some (mkLinkRequest dh url ctx others (index + 1) i (links.getD i ""))) := by
  have hn0 : n ≠ 0 := Nat.pos_iff_ne_zero.mp hn
  rw [handleLinkExtraction_ok dh rules page url ctx index linkRule links others
    hfind hlinks hothers]
  simp only [Except.toOption, truncateLinks, hmax, if_neg hn0]
  constructor
  · simp only [Option.map_some']
    rw [buildLinkRequests_length, List.length_take]
    exact congrArg some (Nat.min_eq_left (Nat.le_of_lt hlen))
  · simp only [Option.some_bind]
    rw [buildLinkRequests_get?, take_get?_of_lt links n i hi,
      get?_eq_getD_of_lt links i "" (Nat.lt_trans hi hlen)]
    simp

def pageA : Page where
  xpathQ := fun e =>
    if e = "//a/@href" then .ok [" a.html", "b.html", "c.html"]
    else if e = "//h2/text()" then .ok ["T1", "T2"]
    else .ok []
  cssQ := fun _ => .ok []

def linkRuleA : FieldRule :=
  { fieldName := "link", expression := "//a/@href", multiple := true,
    maxLinks := some 2 }

def titleRuleA : FieldRule :=
  { fieldName := "title", expression := "//h2/text()", multiple := true }

def rulesA : List FieldRule := [linkRuleA, titleRuleA]

def dhA : Headers := [("Accept-Language", "en")]

def othersA : List (String × List String) := [("title", ["T1", "T2"])]

/-- Witness for C1: three extracted links, `maxLinks = 2`: exactly two
requests, the first built from the first link with `title := "T1"`. -/
theorem linkExtraction_maxLinks_emits_exactly_n_witness :
    ((WorkflowProcessor.handleLinkExtraction dhA rulesA pageA "http://e.com/list"
        [] 1).toOption.map List.length = some 2)
    ∧ ((WorkflowProcessor.handleLinkExtraction dhA rulesA pageA "http://e.com/list"
        [] 1).toOption.bind (fun reqs => reqs.get? 0)
        = some (WorkflowProcessor.mkLinkRequest dhA "http://e.com/list" [] othersA
            2 0 "a.html")) :=
  linkExtraction_maxLinks_emits_exactly_n dhA rulesA pageA "http://e.com/list" [] 1
    linkRuleA 2 ["a.html", "b.html", "c.html"] othersA 0
    (by decide) (by decide) (by decide) (by decide) (by decide) (by decide) (by decide)

open WorkflowProcessor in
/-- C2: for every surviving link position `i` and every non-`link` sibling
rule with a non-empty extracted value list, the emitted request at position
`i` carries a context mapping the sibling field to the value at index `i`
when in range and to the *last* value otherwise — a single lookup at the
clamped index `min i (length - 1)`, never a wraparound and never an error. -/
theorem linkExtraction_sibling_index_clamp
    (dh : Headers) (rules : List FieldRule) (page : Page) (url : String)
    (ctx : Ctx) (index : Nat) (linkRule : FieldRule) (links : List String)
    (others : List (String × List String)) (f : String) (values : List String)
    (i : Nat)
    (hfind : rules.find? (fun r => r.fieldName = "link") = some linkRule)
    (hlinks : extractMultiple page linkRule = .ok links)
    (hothers : extractOthers page rules = .ok others)
    (hnodup : (others.map Prod.fst).Nodup)
    (hmem : (f, values) ∈ others) (hvne : values ≠ [])
    (hi : i < (truncateLinks linkRule.maxLinks links).length) :
    (((handleLinkExtraction dh rules page url ctx index).toOption.bind
        (fun reqs => reqs.get? i)).bind
        (fun r => ctxGet r.context f))
      = values.get? (min i (values.length - 1)) := by
  rw [handleLinkExtraction_ok dh rules page url ctx index linkRule links others
    hfind hlinks hothers]
  simp only [Except.toOption, Option.some_bind]
  rw [buildLinkRequests_get?,
    get?_eq_getD_of_lt (truncateLinks linkRule.maxLinks links) i "" hi]
  simp only [Option.map_some', Option.some_bind, mkLinkRequest, Nat.zero_add]
  rw [ctxGet_pairContext_of_mem ctx others f values i hnodup hmem hvne]
  exact (get?_min_clamp values i "" hvne).symm

def linkRuleB : FieldRule :=
  { fieldName := "link", expression := "//a/@href", multiple := true }

def rulesB : List FieldRule := [linkRuleB, titleRuleA]

/-- Witness for C2: three links, two sibling `title` values; the request at
position `2` falls back to the *last* title value `"T2"` (index clamp). -/
theorem linkExtraction_sibling_index_clamp_witness :
    (((WorkflowProcessor.handleLinkExtraction dhA rulesB pageA "http://e.com/list"
        [] 1).toOption.bind (fun reqs => reqs.get? 2)).bind
        (fun r => ctxGet r.context "title"))
      = some "T2" :=
  linkExtraction_sibling_index_clamp dhA rulesB pageA "http://e.com/list" [] 1
    linkRuleB ["a.html", "b.html", "c.html"] othersA "title" ["T1", "T2"] 2
    (by decide) (by decide) (by decide) (by decide) (by decide) (by decide) (by decide)

open WorkflowProcessor in
/-- C3 (amended): extracted link values that are empty or whitespace-only
after stripping are NOT skipped — every position of the (possibly truncated)
link list, the empty values included, yields one follow-up request.  Every
value is resolved with `urljoin` against the current page URL, the empty
value resolving to the page URL itself. -/
theorem linkExtraction_no_skip_urljoin_resolution
    (dh : Headers) (rules : List FieldRule) (page : Page) (url : String)
    (ctx : Ctx) (index : Nat) (linkRule : FieldRule) (links : List String)
    (others : List (String × List String)) (i : Nat)
    (hfind : rules.find? (fun r => r.fieldName = "link") = some linkRule)
    (hlinks : extractMultiple page linkRule = .ok links)
    (hothers : extractOthers page rules = .ok others)
    (hi : i < (truncateLinks linkRule.maxLinks links).length) :
    ((handleLinkExtraction dh rules page url ctx index).toOption.map List.length
      = some (truncateLinks linkRule.maxLinks links).length)
    ∧ (((handleLinkExtraction dh rules page url ctx index).toOption.bind
        (fun reqs => reqs.get? i)).map Request.url
      = some (urljoin url ((truncateLinks linkRule.maxLinks links).getD i "")))
    ∧ (((truncateLinks linkRule.maxLinks links).getD i "" = "") →
        ((handleLinkExtraction dh rules page url ctx index).toOption.bind
          (fun reqs => reqs.get? i)).map Request.url = some url) := by
  rw [handleLinkExtraction_ok dh rules page url ctx index linkRule links others
    hfind hlinks hothers]
  simp only [Except.toOption, Option.some_bind, Option.map_some']
  refine ⟨?_, ?_, ?_⟩
  · rw [buildLinkRequests_length]
  · rw [buildLinkRequests_get?,
      get?_eq_getD_of_lt (truncateLinks linkRule.maxLinks links) i "" hi]
    simp [mkLinkRequest]
  · intro hempty
    rw [buildLinkRequests_get?,
      get?_eq_getD_of_lt (truncateLinks linkRule.maxLinks links) i "" hi]
    simp only [Option.map_some', mkLinkRequest, Nat.zero_add]
    rw [hempty, urljoin_empty]

def pageC : Page where
  xpathQ := fun e => if e = "//a/@href" then .ok ["   ", "b.html"] else .ok []
  cssQ := fun _ => .ok []

def linkRuleC : FieldRule :=
  { fieldName := "link", expression := "//a/@href", multiple := true }

def rulesC : List FieldRule := [linkRuleC]

/-- C3 counterexample: a page extracting a whitespace-only link and one real
link yields TWO pushed requests — the whitespace-only value is not skipped;
its request targets the page's own URL (`urljoin(url, "")`). -/
theorem whitespace_link_enqueued_counterexample :
    WorkflowProcessor.handleLinkExtraction [] rulesC pageC "http://e.com/x/" [] 1
      = .ok
        [{ url := "http://e.com/x/", method := "GET", headers := [],
           workflowIndex := 2, context := [], dontFilter := false },
         { url := "http://e.com/x/b.html", method := "GET", headers := [],
           workflowIndex := 2, context := [], dontFilter := false }] := by
  decide

/-- Witness for the amended C3: at the whitespace-only position `0` of the
same page, a request is emitted whose URL is the page URL itself. -/
theorem linkExtraction_no_skip_urljoin_resolution_witness :
    ((WorkflowProcessor.handleLinkExtraction [] rulesC pageC "http://e.com/x/"
        [] 1).toOption.map List.length = some 2)
    ∧ (((WorkflowProcessor.handleLinkExtraction [] rulesC pageC "http://e.com/x/"
        [] 1).toOption.bind (fun reqs => reqs.get? 0)).map
          WorkflowProcessor.Request.url = some "http://e.com/x/") :=
  ⟨(linkExtraction_no_skip_urljoin_resolution [] rulesC pageC "http://e.com/x/" [] 1
      linkRuleC ["", "b.html"] [] 0
      (by decide) (by decide) (by decide) (by decide)).1,
   (linkExtraction_no_skip_urljoin_resolution [] rulesC pageC "http://e.com/x/" [] 1
      linkRuleC ["", "b.html"] [] 0
      (by decide) (by decide) (by decide) (by decide)).2.2 (by decide)⟩

open WorkflowProcessor in
/-- C10: `maxLinks = 0` is falsy for the code's `if max_links:` guard, so no
truncation is applied — every extracted link produces a follow-up request
(rather than zero requests). -/
theorem linkExtraction_maxLinks_zero_no_truncation
    (dh : Headers) (rules : List FieldRule) (page : Page) (url : String)
    (ctx : Ctx) (index : Nat) (linkRule : FieldRule) (links : List String)
    (others : List (String × List String))
    (hfind : rules.find? (fun r => r.fieldName = "link") = some linkRule)
    (hmax : linkRule.maxLinks = some 0)
    (hlinks : extractMultiple page linkRule = .ok links)
    (hothers : extractOthers page rules = .ok others) :
    truncateLinks linkRule.maxLinks links = links
    ∧ ((handleLinkExtraction dh rules page url ctx index).toOption.map
        List.length = some links.length) := by
  constructor
  · rw [hmax]
    simp [truncateLinks]
  · rw [handleLinkExtraction_ok dh rules page url ctx index linkRule links others
      hfind hlinks hothers]
    simp [Except.toOption, hmax, truncateLinks, buildLinkRequests_length]

def linkRuleD : FieldRule :=
  { fieldName := "link", expression := "//a/@href", multiple := true,
    maxLinks := some 0 }

def rulesD : List FieldRule := [linkRuleD, titleRuleA]

/-- Witness for C10: `maxLinks = 0` with three extracted links emits three
requests, not zero. -/
theorem linkExtraction_maxLinks_zero_no_truncation_witness :
    WorkflowProcessor.truncateLinks linkRuleD.maxLinks ["a.html", "b.html", "c.html"]
      = ["a.html", "b.html", "c.html"]
    ∧ ((WorkflowProcessor.handleLinkExtraction dhA rulesD pageA "http://e.com/list"
        [] 1).toOption.map List.length = some 3) :=
  linkExtraction_maxLinks_zero_no_truncation dhA rulesD pageA "http://e.com/list" [] 1
    linkRuleD ["a.html", "b.html", "c.html"] othersA
    (by decide) (by decide) (by decide) (by decide)

theorem get?_map_fn {α β : Type _} (f : α → β) :
    ∀ (l : List α) (i : Nat), (l.map f).get? i = (l.get? i).map f := by
  intro l
  induction l with
  | nil => intro i; rfl
  | cons a t ih =>
    intro i
    cases i with
    | zero => rfl
    | succ i => exact ih i

open WorkflowProcessor in
/-- C9 (amended): for a `data_extraction` step at index `i` whose
`nextRequestCustomCode` is truthy, each descriptor the hook returns yields
one follow-up request whose `workflow_index` is the descriptor's own
`meta.workflow_index` when present and `i + 1` otherwise, and whose `url` is
the descriptor's `url` taken verbatim — a relative url is NOT resolved
against the current page's URL by the worker. -/
theorem dataExtraction_hook_requests
    (dh : Headers) (step : DataStep) (index : Nat) (results : List Descriptor)
    (code : String) (j : Nat)
    (hcode : step.nextRequestCustomCode = some code)
    (hne : code ≠ "") :
    ((handleDataRequests dh step index results).length = results.length)
    ∧ (((handleDataRequests dh step index results).get? j).map HookRequest.url
        = (results.get? j).map Descriptor.url)
    ∧ (((handleDataRequests dh step index results).get? j).map
          (fun r => r.workflowIndex)
        = (results.get? j).map (fun d => d.metaWorkflowIndex.getD (index + 1))) := by
  simp only [handleDataRequests, hcode, if_neg hne, buildHookRequests]
  refine ⟨by rw [List.length_map], ?_, ?_⟩
  · rw [get?_map_fn]
    cases results.get? j <;> rfl
  · rw [get?_map_fn]
    cases results.get? j <;> rfl

def dh9 : Headers := [("User-Agent", "bot")]

def step9 : WorkflowProcessor.DataStep := { nextRequestCustomCode := some "custom" }

/-- C9 counterexample: for a `data_extraction` step at index 2 whose hook
returns the single descriptor with url `"/p2"` against the page
`http://example.com/a`, the emitted request carries `workflow_index = 3` as
claimed, but its url is the verbatim `"/p2"`, not the resolved
`http://example.com/p2` the claim requires. -/
theorem hook_request_url_verbatim_counterexample :
    WorkflowProcessor.handleDataRequests dh9 step9 2 [{ url := some "/p2" }]
      = [{ url := some "/p2", method := "GET", headers := dh9,
           workflowIndex := 3, dontFilter := false }]
    ∧ urljoin "http://example.com/a" "/p2" = "http://example.com/p2"
    ∧ (some "/p2" : Option String) ≠ some (urljoin "http://example.com/a" "/p2") := by
  refine ⟨by decide, by decide, by decide⟩

/-- Witness for the amended C9. -/
theorem dataExtraction_hook_requests_witness :
    ((WorkflowProcessor.handleDataRequests dh9 step9 2 [{ url := some "/p2" }]).length
       = ([{ url := some "/p2" }] : List WorkflowProcessor.Descriptor).length)
    ∧ (((WorkflowProcessor.handleDataRequests dh9 step9 2
          [{ url := some "/p2" }]).get? 0).map WorkflowProcessor.HookRequest.url
        = (([{ url := some "/p2" }] : List WorkflowProcessor.Descriptor).get? 0).map
            WorkflowProcessor.Descriptor.url)
    ∧ (((WorkflowProcessor.handleDataRequests dh9 step9 2
          [{ url := some "/p2" }]).get? 0).map (fun r => r.workflowIndex)
        = (([{ url := some "/p2" }] : List WorkflowProcessor.Descriptor).get? 0).map
            (fun d => d.metaWorkflowIndex.getD (2 + 1))) :=
  dataExtraction_hook_requests dh9 step9 2 [{ url := some "/p2" }] "custom" 0
    (by decide) (by decide)

open WorkflowProcessor WorkflowRunner in
/-- C4 (amended): with a non-empty expression and `multiple=False`, the two
extractors differ from the claim in complementary ways:
`WorkflowProcessor._extract` returns the first match *stripped* when one
exists but Python `None` (not `""`) when the expression matches nothing,
while `WorkflowRunner._extract` returns `""` on a miss but the first match
*untrimmed* on a hit. -/
theorem extract_single_semantics
    (page : Page) (rule : FieldRule) (q : List String)
    (hexpr : rule.expression ≠ "")
    (het : rule.extractType = "xpath" ∨ rule.extractType = "css")
    (hq : (if rule.extractType = "css" then page.cssQ else page.xpathQ)
        rule.expression = .ok q) :
    WorkflowProcessor.extractSingle page rule = .ok (q.head?.map pyStrip)
    ∧ WorkflowRunner.extractSingle page rule.expression rule.extractType
        = .ok (q.headD "") := by
  constructor
  · unfold WorkflowProcessor.extractSingle
    rw [if_neg hexpr, hq]
  · unfold WorkflowRunner.extractSingle
    rcases het with h | h
    · rw [h] at hq ⊢
      rw [if_neg (by decide)] at hq
      rw [if_pos rfl, hq]
    · rw [h] at hq ⊢
      rw [if_pos rfl] at hq
      rw [if_neg (by decide), hq]

/-- A page on which `//h1/text()` matches nothing and `//p/text()` matches
the single padded text `" X "`. -/
def pageM : Page where
  xpathQ := fun e => if e = "//p/text()" then .ok [" X "] else .ok []
  cssQ := fun _ => .ok []

def titleRuleM : FieldRule := { fieldName := "title", expression := "//h1/text()" }

def pRuleM : FieldRule := { fieldName := "p", expression := "//p/text()" }

/-- C4 counterexample: on a miss, `WorkflowProcessor._extract` returns
Python `None` — not the empty string the claim requires; and on a hit
`WorkflowRunner._extract` returns the match untrimmed (`" X "`, not
`"X"`). -/
theorem extract_single_claim_counterexample :
    (WorkflowProcessor.extractSingle pageM titleRuleM = .ok none
      ∧ WorkflowProcessor.extractSingle pageM titleRuleM ≠ .ok (some ""))
    ∧ (WorkflowRunner.extractSingle pageM "//p/text()" "xpath" = .ok " X "
      ∧ (" X " : String) ≠ "X") := by
  refine ⟨⟨by decide, by decide⟩, by decide, by decide⟩

/-- Witness for the amended C4. -/
theorem extract_single_semantics_witness :
    WorkflowProcessor.extractSingle pageM pRuleM = .ok (some "X")
    ∧ WorkflowRunner.extractSingle pageM "//p/text()" "xpath" = .ok " X " :=
  extract_single_semantics pageM pRuleM [" X "]
    (by decide) (Or.inl rfl) (by decide)

open WorkflowProcessor WorkflowRunner in
/-- C5 (amended): on an empty expression `WorkflowProcessor._extract`
short-circuits to `[]` / `""` without consulting the selector engine and
never raises; `WorkflowRunner._extract` has no such guard and forwards the
empty expression to the engine, so it propagates the engine's error —
parsel/lxml reject the empty XPath/CSS expression with `ValueError` on every
document. -/
theorem empty_expression_extraction
    (page : Page) (rule : FieldRule) (msg : String)
    (hexpr : rule.expression = "")
    (hx : page.xpathQ "" = .error msg) :
    WorkflowProcessor.extractMultiple page rule = .ok []
    ∧ WorkflowProcessor.extractSingle page rule = .ok (some "")
    ∧ WorkflowRunner.extractMultiple page "" "xpath" = .error msg
    ∧ WorkflowRunner.extractSingle page "" "xpath" = .error msg := by
  refine ⟨?_, ?_, ?_, ?_⟩
  · unfold WorkflowProcessor.extractMultiple
    rw [if_pos hexpr]
  · unfold WorkflowProcessor.extractSingle
    rw [if_pos hexpr]
  · unfold WorkflowRunner.extractMultiple
    rw [if_pos rfl, hx]
  · unfold WorkflowRunner.extractSingle
    rw [if_pos rfl, hx]

/-- A page whose engine, like parsel/lxml on *every* document, rejects the
empty expression (`Selector(...).xpath("")` and `.css("")` raise
`ValueError`) and matches nothing otherwise. -/
def pageE : Page where
  xpathQ := fun e =>
    if e = "" then .error "XPath error: Invalid expression" else .ok []
  cssQ := fun e =>
    if e = "" then .error "CSS error: Invalid expression" else .ok []

def emptyRuleE : FieldRule := { fieldName := "x", expression := "" }

/-- C5 counterexample: `WorkflowRunner._extract` with the empty expression
errors instead of returning `[]` / `""`. -/
theorem runner_empty_expression_error_counterexample :
    WorkflowRunner.extractMultiple pageE "" "xpath"
        = .error "XPath error: Invalid expression"
    ∧ WorkflowRunner.extractMultiple pageE "" "xpath" ≠ .ok []
    ∧ WorkflowRunner.extractSingle pageE "" "xpath" ≠ .ok "" := by
  refine ⟨by decide, by decide, by decide⟩

/-- Witness for the amended C5. -/
theorem empty_expression_extraction_witness :
    WorkflowProcessor.extractMultiple pageE emptyRuleE = .ok []
    ∧ WorkflowProcessor.extractSingle pageE emptyRuleE = .ok (some "")
    ∧ WorkflowRunner.extractMultiple pageE "" "xpath"
        = .error "XPath error: Invalid expression"
    ∧ WorkflowRunner.extractSingle pageE "" "xpath"
        = .error "XPath error: Invalid expression" :=
  empty_expression_extraction pageE emptyRuleE "XPath error: Invalid expression"
    (by decide) (by decide)

namespace EncodingHandler

/-- Where a resolved encoding came from.  The Python `source` strings are
`'Content-Type header'` / `'HTML meta tag'` / `'chardet detection'` /
`'default'` (see `pyLabel`); the spec calls the same four branches "header" /
"meta" / "statistical" / "default". -/
inductive EncodingSource where
  | header
  | metaTag
  | statistical
  | defaultUtf8
deriving DecidableEq

/-- The literal `source` string `get_encoding_info` stores for each branch
(src/crawler/utils/encoding_handler.py:212/221/231/202). -/
def pyLabel : EncodingSource → String
  | .header => "Content-Type header"
  | .metaTag => "HTML meta tag"
  | .statistical => "chardet detection"
  | .defaultUtf8 => "default"

/-- A response-header value: a string, or a list of strings (the code's
`isinstance(value, list)` branch).  The `bytes` variant (decoded permissively
before parsing) is elided: claims only exercise string headers. -/
inductive HeaderValue where
  | str (s : String)
  | list (vs : List String)
deriving DecidableEq

/-- The external Python machinery `encoding_handler.py` calls into, as
explicit functions with the facts the proofs use recorded as fields:
  * `knownCodec` — whether `''.encode(name)` succeeds (the codec registry);
  * `chardet` — `chardet.detect`, as `(encoding, confidence)` or `none`
    when the detector reports no encoding;
  * `decodeUtf8Ignore` — `bytes.decode('utf-8', errors='ignore')`;
  * `decodeReplace` — `bytes.decode(enc, errors='replace')`, `none` when
    the codec name is unknown (`LookupError`); with `errors='replace'` a
    known codec never fails, hence `utf8_replace_total`;
  * `chardet_encoding_ne` — `chardet.detect` never reports the empty string
    as an encoding (it reports `None` instead);
  * `chardet_empty` — `chardet.detect(b"")` reports no encoding.
Bytes are modelled as `List Nat`. -/
structure PyEnv where
  knownCodec : String → Bool
  chardet : List Nat → Option (String × ℚ)
  decodeUtf8Ignore : List Nat → String
  decodeReplace : String → List Nat → Option String
  utf8_replace_total : ∀ bs, (decodeReplace "utf-8" bs).isSome
  chardet_encoding_ne : ∀ bs e c, chardet bs = some (e, c) → e ≠ ""
  chardet_empty : chardet [] = none

/-- The `ENCODING_ALIASES` table
(src/crawler/utils/encoding_handler.py:15-24). -/
def ENCODING_ALIASES : List (String × String) :=
  [("utf8", "utf-8"), ("utf_8", "utf-8"), ("gb2312", "gb2312"),
   ("gbk", "gbk"), ("big5", "big5"), ("big5hkscs", "big5"),
   ("iso8859-1", "iso-8859-1"), ("latin1", "iso-8859-1")]

/-- `EncodingHandler._normalize_encoding`
(src/crawler/utils/encoding_handler.py:128-145): falsy input → `None`;
lower-case and strip; alias fold; otherwise keep the name when the codec
registry knows it (`''.encode(...)`), else `None` so the cascade goes on. -/
def normalize_encoding (known : String → Bool) (enc : String) : Option String :=
  if enc = "" then none
  else
    let e := pyStrip (lowerStr enc)
    match (ENCODING_ALIASES.find? (fun p => p.1 = e)).map Prod.snd with
    | some v => some v
    | none => if known e then some e else none

/-- Is this character one of Python's `\'"` quote characters? -/
def isQuote (c : Char) : Bool := c = '\'' ∨ c = '"'

/-- Python `str.strip('\x27"')`: remove leading/trailing quote characters. -/
def stripQuotes (s : String) : String :=
  String.mk (((s.data.dropWhile isQuote).reverse.dropWhile isQuote).reverse)

/-- Case-insensitively match the literal `pat` (given lower-case) at the
head of `cs`, returning the remainder on success. -/
def matchLitCI (pat : List Char) (cs : List Char) : Option (List Char) :=
  if pat.length ≤ cs.length ∧ (cs.take pat.length).map Char.toLower = pat then
    some (cs.drop pat.length)
  else none

/-- Match `charset\s*=\s*["\x27]?(TOKEN+)` at the head of `cs` (the regex
tail shared by the code's charset patterns): case-insensitive `charset`,
optional whitespace around `=`, at most one opening quote when `allowQuote`,
then a maximal non-empty run of characters outside `stop`. -/
def charsetAt (stop : Char → Bool) (allowQuote : Bool) (cs : List Char) :
    Option String :=
  match matchLitCI "charset".data cs with
  | none => none
  | some rest =>
    match rest.dropWhile pySpace with
    | '=' :: rest2 =>
      let rest3 := (rest2.dropWhile pySpace)
      let rest4 :=
        if allowQuote then
          match rest3 with
          | c :: t => if isQuote c then t else rest3
          | [] => rest3
        else rest3
      let tok := rest4.takeWhile (fun c => ¬ stop c)
      if tok.isEmpty then none else some (String.mk tok)
    | _ => none

/-- `re.search` for the charset tail: try `charsetAt` at every position,
first hit wins. -/
def searchCharset (stop : Char → Bool) (allowQuote : Bool) :
    List Char → Option String
  | [] => none
  | c :: cs =>
    match charsetAt stop allowQuote (c :: cs) with
    | some tok => some tok
    | none => searchCharset stop allowQuote cs

/-- The stop set of the header pattern `charset\s*=\s*([^\s;]+)`. -/
def headerStop (c : Char) : Bool := pySpace c ∨ c = ';'

/-- The stop set of the meta patterns' token class `[^\s"\x27>;]`. -/
def metaStop (c : Char) : Bool := pySpace c ∨ isQuote c ∨ c = '>' ∨ c = ';'

/-- The first meta pattern
`<meta\s+charset\s*=\s*["\x27]?([^\s"\x27>;]+)`: search for `<meta`, at
least one whitespace, then the charset tail. -/
def metaTagCharset : List Char → Option String
  | [] => none
  | c :: cs =>
    (match matchLitCI "<meta".data (c :: cs) with
     | some rest =>
       match rest with
       | r :: _ =>
         if pySpace r then charsetAt metaStop true (rest.dropWhile pySpace)
         else none
       | [] => none
     | none => none).orElse (fun _ => metaTagCharset cs)

/-- The charset scan `_extract_encoding_from_meta` runs over the decoded
head (src/crawler/utils/encoding_handler.py:110-122): the Python code tries
three regex patterns in order — `<meta charset=...>`, the
`http-equiv="content-type"` form, and a bare `charset=...` fallback.  Any
input matching the second pattern also matches the third (the second
contains a literal `charset=` followed by the same token class), so the
model folds it into the bare fallback; on contrived inputs where an earlier
bare `charset=` precedes an `http-equiv` attribute the token chosen may
differ, which no claim depends on. -/
def searchMetaCharset (s : String) : Option String :=
  match metaTagCharset s.data with
  | some tok => some tok
  | none => searchCharset metaStop false s.data

/-- `EncodingHandler._extract_encoding_from_headers`
(src/crawler/utils/encoding_handler.py:63-94): first key whose lower-case
form is `content-type` (break on first hit); a list value contributes its
first element; a falsy content type yields `None`; then the
`charset\s*=\s*([^\s;]+)` search, quote-stripping, and normalization. -/
def extract_encoding_from_headers (env : PyEnv)
    (headers : List (String × HeaderValue)) : Option String :=
  if headers.isEmpty then none
  else
    match headers.find? (fun kv => lowerStr kv.1 = "content-type") with
    | none => none
    | some kv =>
      match (match kv.2 with
             | .str s => some s
             | .list vs => vs.head?) with
      | none => none
      | some ct =>
        if ct = "" then none
        else
          match searchCharset headerStop false ct.data with
          | none => none
          | some tok => normalize_encoding env.knownCodec (stripQuotes tok)

/-- `EncodingHandler._extract_encoding_from_meta`
(src/crawler/utils/encoding_handler.py:96-126): only the first 2048 bytes
are inspected, decoded permissively (`utf-8`/`errors='ignore'` — the
`latin-1` fallback is dead code, as ignore-mode decoding never raises);
a found charset is normalized.  The surrounding `try/except` never fires in
the model (no modelled operation raises). -/
def extract_encoding_from_meta (env : PyEnv) (content : List Nat) :
    Option String :=
  let headStr := env.decodeUtf8Ignore (content.take 2048)
  match searchMetaCharset headStr with
  | some charset =>
    if charset = "" then none else normalize_encoding env.knownCodec charset
  | none => none

/-- `EncodingHandler.detect_encoding`
(src/crawler/utils/encoding_handler.py:26-61): headers (when truthy) →
confidence 1.0; meta → 0.95; chardet on non-empty content when it reports a
truthy encoding → its confidence; else `('utf-8', 0.0)`. -/
def detect_encoding (env : PyEnv) (content : List Nat)
    (headers : List (String × HeaderValue)) : String × ℚ :=
  match (if headers.isEmpty then none else extract_encoding_from_headers env headers) with
  | some e => (e, 1)
  | none =>
    match extract_encoding_from_meta env content with
    | some e => (e, 95 / 100)
    | none =>
      match (if content.isEmpty then none else env.chardet content) with
      | some ec => if ec.1 = "" then ("utf-8", 0) else ec
      | none => ("utf-8", 0)

/-- The result dict of `get_encoding_info`
(src/crawler/utils/encoding_handler.py:199-204), with `source` as the
branch tag (`pyLabel` gives the literal Python string) and `methods` the
literal method strings. -/
structure EncodingInfo where
  encoding : String
  confidence : ℚ
  source : EncodingSource
  methods : List String
deriving DecidableEq

/-- `EncodingHandler.get_encoding_info`
(src/crawler/utils/encoding_handler.py:186-234). -/
def get_encoding_info (env : PyEnv) (content : List Nat)
    (headers : List (String × HeaderValue)) : EncodingInfo :=
  match (if headers.isEmpty then none else extract_encoding_from_headers env headers) with
  | some e =>
    { encoding := e, confidence := 1, source := .header, methods := ["header"] }
  | none =>
    match extract_encoding_from_meta env content with
    | some e =>
      { encoding := e, confidence := 95 / 100, source := .metaTag,
        methods := ["meta"] }
    | none =>
      match (if content.isEmpty then none else env.chardet content) with
      | some ec =>
        if ec.1 = "" then
          { encoding := "utf-8", confidence := 0, source := .defaultUtf8,
            methods := [] }
        else
          { encoding := ec.1, confidence := ec.2, source := .statistical,
            methods := ["chardet"] }
      | none =>
        { encoding := "utf-8", confidence := 0, source := .defaultUtf8,
          methods := [] }

/-- The `common_encodings` retry list of `decode_content`
(src/crawler/utils/encoding_handler.py:176). -/
def common_encodings : List String :=
  ["utf-8", "gbk", "gb2312", "big5", "iso-8859-1", "cp936"]

/-- The `for enc in common_encodings` retry loop
(src/crawler/utils/encoding_handler.py:177-181). -/
def tryCommonEncodings (env : PyEnv) (content : List Nat) :
    List String → Option String
  | [] => none
  | e :: es =>
    match env.decodeReplace e content with
    | some s => some s
    | none => tryCommonEncodings env content es

/-- `EncodingHandler.decode_content`
(src/crawler/utils/encoding_handler.py:147-184): empty content → `""`;
otherwise decode with the detected encoding, then the common list, then the
fallback encoding, always with `errors='replace'`.  `none` would model an
uncaught `LookupError` on the final fallback decode.  (The
`isinstance(content, str)` early return is elided: the input is bytes.) -/
def decode_content (env : PyEnv) (content : List Nat)
    (headers : List (String × HeaderValue)) (fallback_encoding : String) :
    Option String :=
  if content.isEmpty then some ""
  else
    match env.decodeReplace (detect_encoding env content headers).1 content with
    | some s => some s
    | none =>
      match tryCommonEncodings env content common_encodings with
      | some s => some s
      | none => env.decodeReplace fallback_encoding content

/-- Written from the spec's words for C6 (§4.1 resolution order): a
charset parsed from the `Content-Type` header wins with confidence 1.0 and
source "header"; otherwise a meta-tag charset found by scanning *only the
first 2048 bytes* wins with confidence 0.95 and source "meta"; otherwise
statistical detection over the *full* buffer with the detector's
confidence; otherwise utf-8 / 0.0 / "default". -/
def encodingCascadeSpec (env : PyEnv) (content : List Nat)
    (headers : List (String × HeaderValue)) : EncodingInfo :=
  match extract_encoding_from_headers env headers with
  | some e =>
    { encoding := e, confidence := 1, source := .header, methods := ["header"] }
  | none =>
    match extract_encoding_from_meta env (content.take 2048) with
    | some e =>
      { encoding := e, confidence := 95 / 100, source := .metaTag,
        methods := ["meta"] }
    | none =>
      match env.chardet content with
      | some ec =>
        { encoding := ec.1, confidence := ec.2, source := .statistical,
          methods := ["chardet"] }
      | none =>
        { encoding := "utf-8", confidence := 0, source := .defaultUtf8,
          methods := [] }

theorem extract_encoding_from_headers_nil (env : PyEnv) :
    extract_encoding_from_headers env [] = none := rfl

theorem extract_encoding_from_meta_take (env : PyEnv) (content : List Nat) :
    extract_encoding_from_meta env (content.take 2048)
      = extract_encoding_from_meta env content := by
  unfold extract_encoding_from_meta
  rw [List.take_take, Nat.min_self]

theorem get_encoding_info_eq_cascadeSpec (env : PyEnv) (content : List Nat)
    (headers : List (String × HeaderValue)) :
    get_encoding_info env content headers = encodingCascadeSpec env content headers := by
  have hHdr : (if headers.isEmpty then none
      else extract_encoding_from_headers env headers)
      = extract_encoding_from_headers env headers := by
    cases headers with
    | nil => rfl
    | cons a t => rfl
  have hChar : (if content.isEmpty then none else env.chardet content)
      = env.chardet content := by
    cases content with
    | nil => exact env.chardet_empty.symm
    | cons a t => rfl
  unfold get_encoding_info encodingCascadeSpec
  rw [hHdr, hChar, extract_encoding_from_meta_take]
  cases hE : extract_encoding_from_headers env headers with
  | some e => rfl
  | none =>
    cases hM : extract_encoding_from_meta env content with
    | some e => rfl
    | none =>
      cases hC : env.chardet content with
      | none => rfl
      | some ec =>
        have hne : ec.1 ≠ "" :=
          env.chardet_encoding_ne content ec.1 ec.2 (by rw [hC])
        simp [hne]

theorem detect_encoding_eq_cascadeSpec (env : PyEnv) (content : List Nat)
    (headers : List (String × HeaderValue)) :
    detect_encoding env content headers
      = ((encodingCascadeSpec env content headers).encoding,
         (encodingCascadeSpec env content headers).confidence) := by
  have hHdr : (if headers.isEmpty then none
      else extract_encoding_from_headers env headers)
      = extract_encoding_from_headers env headers := by
    cases headers with
    | nil => rfl
    | cons a t => rfl
  have hChar : (if content.isEmpty then none else env.chardet content)
      = env.chardet content := by
    cases content with
    | nil => exact env.chardet_empty.symm
    | cons a t => rfl
  unfold detect_encoding encodingCascadeSpec
  rw [hHdr, hChar, extract_encoding_from_meta_take]
  cases hE : extract_encoding_from_headers env headers with
  | some e => rfl
  | none =>
    cases hM : extract_encoding_from_meta env content with
    | some e => rfl
    | none =>
      cases hC : env.chardet content with
      | none => rfl
      | some ec =>
        have hne : ec.1 ≠ "" :=
          env.chardet_encoding_ne content ec.1 ec.2 (by rw [hC])
        simp [hne]

end EncodingHandler

open EncodingHandler in
/-- C6: both `detect_encoding` and `get_encoding_info` implement exactly the
spec's resolution cascade, first success winning: header charset (parsed
case-insensitively from `Content-Type`) with confidence 1.0 and source
"header"; else a meta charset found scanning only the first 2048 bytes with
confidence 0.95 and source "meta"; else `chardet` over the full buffer with
the detector's confidence and source "statistical"; else utf-8 / 0.0 /
"default". -/
theorem encoding_resolution_cascade (env : PyEnv) (content : List Nat)
    (headers : List (String × HeaderValue)) :
    get_encoding_info env content headers = encodingCascadeSpec env content headers
    ∧ detect_encoding env content headers
        = ((encodingCascadeSpec env content headers).encoding,
           (encodingCascadeSpec env content headers).confidence) :=
  ⟨get_encoding_info_eq_cascadeSpec env content headers,
   detect_encoding_eq_cascadeSpec env content headers⟩

open EncodingHandler in
/-- C7: with empty headers and no manual override, decoding any byte buffer
never raises and always yields a string (the `errors='replace'` cascade ends
at a codec the registry knows), and the reported source is one of "meta",
"statistical", or "default" — never "header". -/
theorem resolve_empty_headers_total_and_source (env : PyEnv) (content : List Nat) :
    (decode_content env content [] "utf-8").isSome = true
    ∧ (get_encoding_info env content []).source ≠ EncodingSource.header
    ∧ ((get_encoding_info env content []).source = EncodingSource.metaTag
        ∨ (get_encoding_info env content []).source = EncodingSource.statistical
        ∨ (get_encoding_info env content []).source = EncodingSource.defaultUtf8) := by
  have hsrc : (get_encoding_info env content []).source ≠ EncodingSource.header
      ∧ ((get_encoding_info env content []).source = EncodingSource.metaTag
        ∨ (get_encoding_info env content []).source = EncodingSource.statistical
        ∨ (get_encoding_info env content []).source = EncodingSource.defaultUtf8) := by
    rw [get_encoding_info_eq_cascadeSpec]
    unfold encodingCascadeSpec
    rw [extract_encoding_from_headers_nil, extract_encoding_from_meta_take]
    cases hM : extract_encoding_from_meta env content with
    | some e => exact ⟨by simp, Or.inl (by simp)⟩
    | none =>
      cases hC : env.chardet content with
      | some ec => exact ⟨by simp, Or.inr (Or.inl (by simp))⟩
      | none => exact ⟨by simp, Or.inr (Or.inr (by simp))⟩
  refine ⟨?_, hsrc.1, hsrc.2⟩
  unfold decode_content
  by_cases h : content.isEmpty
  · rw [if_pos h]
    rfl
  · rw [if_neg h]
    cases hd : env.decodeReplace (detect_encoding env content []).1 content with
    | some s => rfl
    | none =>
      obtain ⟨s, hs⟩ := Option.isSome_iff_exists.mp (env.utf8_replace_total content)
      have ht : tryCommonEncodings env content common_encodings = some s := by
        unfold common_encodings tryCommonEncodings
        rw [hs]
      rw [ht]
      rfl

namespace HashHelper

/-- `HashHelper.get_link_hash` (src/crawler/utils/hash_helper.py):
MD5 hex digest of a non-empty link, `""` otherwise.  `md5` is the external
`hashlib.md5(x.encode()).hexdigest()`, passed in as a function; a real
digest is a 32-character hex string and hence never `""`, which theorems
take as the hypothesis `md5 link ≠ ""`. -/
def get_link_hash (md5 : String → String) (link : String) : String :=
  if link = "" then "" else md5 link

/-- `HashHelper.get_content_hash`: SHA-256 hex digest of non-empty content,
`""` otherwise (`sha256` is the external `hashlib.sha256`). -/
def get_content_hash (sha256 : String → String) (content : String) : String :=
  if content = "" then "" else sha256 content

end HashHelper

namespace DatabaseManager

/-- One row of the `articles` table
(columns of the INSERT in src/crawler/utils/db_manager.py:185-197;
`created_at` is the wall-clock time passed to each call). -/
structure ArticleRow where
  id : Nat
  task_id : String
  title : String
  link : String
  link_hash : String
  source_url : String
  extra : String
  created_at : Nat
deriving DecidableEq

/-- One row of the `article_contents` side table
(src/crawler/utils/db_manager.py:204-214). -/
structure ContentRow where
  article_id : Nat
  content : String
  content_hash : String
  created_at : Nat
deriving DecidableEq

/-- The MySQL store touched by `save_article`: the two tables in insertion
order plus the AUTO_INCREMENT counter behind `lastrowid`. -/
structure MySQLState where
  articles : List ArticleRow
  contents : List ContentRow
  nextId : Nat
deriving DecidableEq

/-- `DatabaseManager.save_article` (src/crawler/utils/db_manager.py:139-216):
inside one transaction, when the link hash is truthy look up
`SELECT id FROM articles WHERE link_hash = ... LIMIT 1` (modelled as the
first matching row in insertion order; the query has no ORDER BY) and return
the existing id without writing; otherwise insert the article row (and, when
`content` is truthy, the content row) and return the fresh id.  `extra` is
the JSON-serialized blob (`json.dumps` is external).  The
`title or ""`-style coercions are identities on the string inputs
modelled. -/
def save_article (md5 sha256 : String → String) (st : MySQLState)
    (task_id title link content source_url extra : String) (now : Nat) :
    Nat × MySQLState :=
  match (if HashHelper.get_link_hash md5 link ≠ "" then
           st.articles.find?
             (fun r => r.link_hash = HashHelper.get_link_hash md5 link)
         else none) with
  | some row => (row.id, st)
  | none =>
    (st.nextId,
     { articles := st.articles ++
         [{ id := st.nextId, task_id := task_id, title := title, link := link,
            link_hash := HashHelper.get_link_hash md5 link,
            source_url := source_url, extra := extra, created_at := now }]
       contents :=
         if content ≠ "" then
           st.contents ++
             [{ article_id := st.nextId, content := content,
                content_hash := HashHelper.get_content_hash sha256 content,
                created_at := now }]
         else st.contents
       nextId := st.nextId + 1 })

theorem save_article_found (md5 sha256 : String → String) (st : MySQLState)
    (task_id title link content source_url extra : String) (now : Nat)
    (row : ArticleRow) (hlink : link ≠ "") (hmd5 : md5 link ≠ "")
    (hfind : st.articles.find? (fun r => r.link_hash = md5 link) = some row) :
    save_article md5 sha256 st task_id title link content source_url extra now
      = (row.id, st) := by
  have hh : HashHelper.get_link_hash md5 link = md5 link := by
    unfold HashHelper.get_link_hash
    rw [if_neg hlink]
  unfold save_article
  rw [hh, if_pos hmd5, hfind]

theorem save_article_notfound (md5 sha256 : String → String) (st : MySQLState)
    (task_id title link content source_url extra : String) (now : Nat)
    (hlink : link ≠ "") (hmd5 : md5 link ≠ "")
    (hfind : st.articles.find? (fun r => r.link_hash = md5 link) = none) :
    save_article md5 sha256 st task_id title link content source_url extra now
      = (st.nextId,
         { articles := st.articles ++
             [{ id := st.nextId, task_id := task_id, title := title,
                link := link, link_hash := md5 link,
                source_url := source_url, extra := extra, created_at := now }]
           contents :=
             if content ≠ "" then
               st.contents ++
                 [{ article_id := st.nextId, content := content,
                    content_hash := HashHelper.get_content_hash sha256 content,
                    created_at := now }]
             else st.contents
           nextId := st.nextId + 1 }) := by
  have hh : HashHelper.get_link_hash md5 link = md5 link := by
    unfold HashHelper.get_link_hash
    rw [if_neg hlink]
  unfold save_article
  rw [hh, if_pos hmd5, hfind]

/-- Calling the MySQL `save_article` twice with the same non-empty link:
the second call returns the first call's id and leaves the store
untouched. -/
theorem save_article_dedup (md5 sha256 : String → String) (st : MySQLState)
    (t1 ti1 link c1 s1 e1 t2 ti2 c2 s2 e2 : String) (now1 now2 : Nat)
    (hlink : link ≠ "") (hmd5 : md5 link ≠ "") :
    (save_article md5 sha256
        (save_article md5 sha256 st t1 ti1 link c1 s1 e1 now1).2
        t2 ti2 link c2 s2 e2 now2).1
      = (save_article md5 sha256 st t1 ti1 link c1 s1 e1 now1).1
    ∧ (save_article md5 sha256
        (save_article md5 sha256 st t1 ti1 link c1 s1 e1 now1).2
        t2 ti2 link c2 s2 e2 now2).2
      = (save_article md5 sha256 st t1 ti1 link c1 s1 e1 now1).2 := by
  cases hfind : st.articles.find? (fun r => r.link_hash = md5 link) with
  | some row =>
    rw [save_article_found md5 sha256 st t1 ti1 link c1 s1 e1 now1 row
      hlink hmd5 hfind]
    rw [save_article_found md5 sha256 st t2 ti2 link c2 s2 e2 now2 row
      hlink hmd5 hfind]
    exact ⟨rfl, rfl⟩
  | none =>
    rw [save_article_notfound md5 sha256 st t1 ti1 link c1 s1 e1 now1
      hlink hmd5 hfind]
    have hfind2 :
        (st.articles ++
            [(⟨st.nextId, t1, ti1, link, md5 link, s1, e1, now1⟩ : ArticleRow)]).find?
            (fun r => r.link_hash = md5 link)
          = some (⟨st.nextId, t1, ti1, link, md5 link, s1, e1, now1⟩ : ArticleRow) := by
      rw [List.find?_append, hfind]
      simp
    have h2 := save_article_found md5 sha256
      ⟨st.articles ++ [(⟨st.nextId, t1, ti1, link, md5 link, s1, e1, now1⟩ : ArticleRow)],
       (if c1 ≠ "" then
          st.contents ++
            [(⟨st.nextId, c1, HashHelper.get_content_hash sha256 c1, now1⟩ : ContentRow)]
        else st.contents),
       st.nextId + 1⟩
      t2 ti2 link c2 s2 e2 now2
      (⟨st.nextId, t1, ti1, link, md5 link, s1, e1, now1⟩ : ArticleRow)
      hlink hmd5 hfind2
    rw [h2]
    exact ⟨rfl, rfl⟩

end DatabaseManager

namespace MongoDBManager

/-- The document `MongoDBManager.save_article` inserts
(src/crawler/utils/mongodb_manager.py:174-186); `oid` abstracts the
`ObjectId` (returned to the caller as its string form). -/
structure MongoDoc where
  oid : Nat
  task_id : String
  title : String
  link : String
  link_hash : String
  content : String
  content_hash : String
  source_url : String
  extra : String
  created_at : Nat
  updated_at : Nat
deriving DecidableEq

/-- The Mongo collection in natural (insertion) order plus the ObjectId
source. -/
structure MongoState where
  docs : List MongoDoc
  nextOid : Nat
deriving DecidableEq

/-- `MongoDBManager.save_article`
(src/crawler/utils/mongodb_manager.py:134-193): when the link hash is
truthy, `find_one({"link_hash": ...})` (first match in natural order)
returns the existing document's id as a string without inserting; otherwise
`insert_one` a fresh document and return its id.  The surrounding
`try/except` returning `None` models driver failures, which do not occur in
the pure model. -/
def save_article (md5 sha256 : String → String) (st : MongoState)
    (task_id title link content source_url extra : String) (now : Nat) :
    Option String × MongoState :=
  match (if HashHelper.get_link_hash md5 link ≠ "" then
           st.docs.find? (fun d => d.link_hash = HashHelper.get_link_hash md5 link)
         else none) with
  | some d => (some (toString d.oid), st)
  | none =>
    (some (toString st.nextOid),
     { docs := st.docs ++
         [{ oid := st.nextOid, task_id := task_id, title := title,
            link := link, link_hash := HashHelper.get_link_hash md5 link,
            content := content,
            content_hash := HashHelper.get_content_hash sha256 content,
            source_url := source_url, extra := extra,
            created_at := now, updated_at := now }]
       nextOid := st.nextOid + 1 })

theorem mongo_save_article_found (md5 sha256 : String → String) (st : MongoState)
    (task_id title link content source_url extra : String) (now : Nat)
    (d : MongoDoc) (hlink : link ≠ "") (hmd5 : md5 link ≠ "")
    (hfind : st.docs.find? (fun d => d.link_hash = md5 link) = some d) :
    save_article md5 sha256 st task_id title link content source_url extra now
      = (some (toString d.oid), st) := by
  have hh : HashHelper.get_link_hash md5 link = md5 link := by
    unfold HashHelper.get_link_hash
    rw [if_neg hlink]
  unfold save_article
  rw [hh, if_pos hmd5, hfind]

theorem mongo_save_article_notfound (md5 sha256 : String → String) (st : MongoState)
    (task_id title link content source_url extra : String) (now : Nat)
    (hlink : link ≠ "") (hmd5 : md5 link ≠ "")
    (hfind : st.docs.find? (fun d => d.link_hash = md5 link) = none) :
    save_article md5 sha256 st task_id title link content source_url extra now
      = (some (toString st.nextOid),
         { docs := st.docs ++
             [{ oid := st.nextOid, task_id := task_id, title := title,
                link := link, link_hash := md5 link, content := content,
                content_hash := HashHelper.get_content_hash sha256 content,
                source_url := source_url, extra := extra,
                created_at := now, updated_at := now }]
           nextOid := st.nextOid + 1 }) := by
  have hh : HashHelper.get_link_hash md5 link = md5 link := by
    unfold HashHelper.get_link_hash
    rw [if_neg hlink]
  unfold save_article
  rw [hh, if_pos hmd5, hfind]

/-- The Mongo `save_article` never reports a failure in the pure model:
both branches return a `some` identifier. -/
theorem save_article_isSome (md5 sha256 : String → String) (st : MongoState)
    (task_id title link content source_url extra : String) (now : Nat) :
    (save_article md5 sha256 st task_id title link content source_url extra
      now).1.isSome = true := by
  unfold save_article
  cases (if HashHelper.get_link_hash md5 link ≠ "" then
           st.docs.find? (fun d => d.link_hash = HashHelper.get_link_hash md5 link)
         else none) with
  | some d => rfl
  | none => rfl

/-- Calling the Mongo `save_article` twice with the same non-empty link:
the second call returns the first call's id string and inserts nothing. -/
theorem mongo_save_article_dedup (md5 sha256 : String → String) (st : MongoState)
    (t1 ti1 link c1 s1 e1 t2 ti2 c2 s2 e2 : String) (now1 now2 : Nat)
    (hlink : link ≠ "") (hmd5 : md5 link ≠ "") :
    (save_article md5 sha256
        (save_article md5 sha256 st t1 ti1 link c1 s1 e1 now1).2
        t2 ti2 link c2 s2 e2 now2).1
      = (save_article md5 sha256 st t1 ti1 link c1 s1 e1 now1).1
    ∧ (save_article md5 sha256
        (save_article md5 sha256 st t1 ti1 link c1 s1 e1 now1).2
        t2 ti2 link c2 s2 e2 now2).2
      = (save_article md5 sha256 st t1 ti1 link c1 s1 e1 now1).2 := by
  cases hfind : st.docs.find? (fun d => d.link_hash = md5 link) with
  | some d =>
    rw [mongo_save_article_found md5 sha256 st t1 ti1 link c1 s1 e1 now1 d
      hlink hmd5 hfind]
    rw [mongo_save_article_found md5 sha256 st t2 ti2 link c2 s2 e2 now2 d
      hlink hmd5 hfind]
    exact ⟨rfl, rfl⟩
  | none =>
    rw [mongo_save_article_notfound md5 sha256 st t1 ti1 link c1 s1 e1 now1
      hlink hmd5 hfind]
    have hfind2 :
        (st.docs ++
            [(⟨st.nextOid, t1, ti1, link, md5 link, c1,
               HashHelper.get_content_hash sha256 c1, s1, e1, now1, now1⟩ : MongoDoc)]).find?
            (fun d => d.link_hash = md5 link)
          = some (⟨st.nextOid, t1, ti1, link, md5 link, c1,
                   HashHelper.get_content_hash sha256 c1, s1, e1, now1, now1⟩ : MongoDoc) := by
      rw [List.find?_append, hfind]
      simp
    have h2 := mongo_save_article_found md5 sha256
      ⟨st.docs ++
         [(⟨st.nextOid, t1, ti1, link, md5 link, c1,
            HashHelper.get_content_hash sha256 c1, s1, e1, now1, now1⟩ : MongoDoc)],
       st.nextOid + 1⟩
      t2 ti2 link c2 s2 e2 now2
      (⟨st.nextOid, t1, ti1, link, md5 link, c1,
        HashHelper.get_content_hash sha256 c1, s1, e1, now1, now1⟩ : MongoDoc)
      hlink hmd5 hfind2
    rw [h2]
    exact ⟨rfl, rfl⟩

end MongoDBManager

/-- C8: on each backend, a second `save` for a record with the same
non-empty `link` is idempotent — it returns the identifier the first call
returned, creates no second row/document (the store is unchanged), and does
not error (the Mongo result is a `some` identifier).  `md5`/`sha256` are the
external hash functions; a real MD5 hex digest is never empty. -/
theorem save_article_idempotent (md5 sha256 : String → String)
    (stM : DatabaseManager.MySQLState) (stG : MongoDBManager.MongoState)
    (t1 ti1 link c1 s1 e1 t2 ti2 c2 s2 e2 : String) (now1 now2 : Nat)
    (hlink : link ≠ "") (hmd5 : md5 link ≠ "") :
    ((DatabaseManager.save_article md5 sha256
        (DatabaseManager.save_article md5 sha256 stM t1 ti1 link c1 s1 e1 now1).2
        t2 ti2 link c2 s2 e2 now2).1
      = (DatabaseManager.save_article md5 sha256 stM t1 ti1 link c1 s1 e1 now1).1)
    ∧ ((DatabaseManager.save_article md5 sha256
        (DatabaseManager.save_article md5 sha256 stM t1 ti1 link c1 s1 e1 now1).2
        t2 ti2 link c2 s2 e2 now2).2
      = (DatabaseManager.save_article md5 sha256 stM t1 ti1 link c1 s1 e1 now1).2)
    ∧ ((MongoDBManager.save_article md5 sha256
        (MongoDBManager.save_article md5 sha256 stG t1 ti1 link c1 s1 e1 now1).2
        t2 ti2 link c2 s2 e2 now2).1
      = (MongoDBManager.save_article md5 sha256 stG t1 ti1 link c1 s1 e1 now1).1)
    ∧ ((MongoDBManager.save_article md5 sha256
        (MongoDBManager.save_article md5 sha256 stG t1 ti1 link c1 s1 e1 now1).2
        t2 ti2 link c2 s2 e2 now2).2
      = (MongoDBManager.save_article md5 sha256 stG t1 ti1 link c1 s1 e1 now1).2)
    ∧ ((MongoDBManager.save_article md5 sha256 stG t1 ti1 link c1 s1 e1
        now1).1.isSome = true) :=
  ⟨(DatabaseManager.save_article_dedup md5 sha256 stM t1 ti1 link c1 s1 e1
      t2 ti2 c2 s2 e2 now1 now2 hlink hmd5).1,
   (DatabaseManager.save_article_dedup md5 sha256 stM t1 ti1 link c1 s1 e1
      t2 ti2 c2 s2 e2 now1 now2 hlink hmd5).2,
   (MongoDBManager.mongo_save_article_dedup md5 sha256 stG t1 ti1 link c1 s1 e1
      t2 ti2 c2 s2 e2 now1 now2 hlink hmd5).1,
   (MongoDBManager.mongo_save_article_dedup md5 sha256 stG t1 ti1 link c1 s1 e1
      t2 ti2 c2 s2 e2 now1 now2 hlink hmd5).2,
   MongoDBManager.save_article_isSome md5 sha256 stG t1 ti1 link c1 s1 e1 now1⟩

/-- Witness for C8: both stores start empty; saving
`link = "http://x/a"` twice returns the same id on each backend and the
second call changes nothing. -/
theorem save_article_idempotent_witness :
    ((DatabaseManager.save_article (fun _ => "h") (fun _ => "s")
        (DatabaseManager.save_article (fun _ => "h") (fun _ => "s")
          ⟨[], [], 1⟩ "t" "A" "http://x/a" "body" "http://x" "{}" 10).2
        "t" "B" "http://x/a" "body2" "http://x" "{}" 20).1
      = (DatabaseManager.save_article (fun _ => "h") (fun _ => "s")
          ⟨[], [], 1⟩ "t" "A" "http://x/a" "body" "http://x" "{}" 10).1)
    ∧ ((DatabaseManager.save_article (fun _ => "h") (fun _ => "s")
        (DatabaseManager.save_article (fun _ => "h") (fun _ => "s")
          ⟨[], [], 1⟩ "t" "A" "http://x/a" "body" "http://x" "{}" 10).2
        "t" "B" "http://x/a" "body2" "http://x" "{}" 20).2
      = (DatabaseManager.save_article (fun _ => "h") (fun _ => "s")
          ⟨[], [], 1⟩ "t" "A" "http://x/a" "body" "http://x" "{}" 10).2)
    ∧ ((MongoDBManager.save_article (fun _ => "h") (fun _ => "s")
        (MongoDBManager.save_article (fun _ => "h") (fun _ => "s")
          ⟨[], 1⟩ "t" "A" "http://x/a" "body" "http://x" "{}" 10).2
        "t" "B" "http://x/a" "body2" "http://x" "{}" 20).1
      = (MongoDBManager.save_article (fun _ => "h") (fun _ => "s")
          ⟨[], 1⟩ "t" "A" "http://x/a" "body" "http://x" "{}" 10).1)
    ∧ ((MongoDBManager.save_article (fun _ => "h") (fun _ => "s")
        (MongoDBManager.save_article (fun _ => "h") (fun _ => "s")
          ⟨[], 1⟩ "t" "A" "http://x/a" "body" "http://x" "{}" 10).2
        "t" "B" "http://x/a" "body2" "http://x" "{}" 20).2
      = (MongoDBManager.save_article (fun _ => "h") (fun _ => "s")
          ⟨[], 1⟩ "t" "A" "http://x/a" "body" "http://x" "{}" 10).2)
    ∧ ((MongoDBManager.save_article (fun _ => "h") (fun _ => "s")
        ⟨[], 1⟩ "t" "A" "http://x/a" "body" "http://x" "{}" 10).1.isSome = true) :=
  save_article_idempotent (fun _ => "h") (fun _ => "s") ⟨[], [], 1⟩ ⟨[], 1⟩
    "t" "A" "http://x/a" "body" "http://x" "{}" "t" "B" "body2" "http://x" "{}"
    10 20 (by decide) (by decide)

end Scrabg
